import Mathlib

/-!
Verification development for the Eyesky two-axis telescope-mount controller
(`src/actuareveeyespy.cpp`): a shallow embedding of its command-to-motion
pipeline (target resolvers, protocol decoder, homing phase, main loop) and
proofs of the specified properties.

Modelling conventions:
* C `float`/`double` arithmetic is embedded as exact rational arithmetic (`ℚ`);
  `millis()` timestamps are `ℕ`.
* The AccelStepper library is opaque per the spec: `moveTo` stores the target
  value, `currentPosition` reads the position, `setCurrentPosition(0)` zeroes
  position and target, and `run()` updates a position in an arbitrary,
  environment-supplied way (a function `ℚ → ℚ → ℚ` from position and target
  to the new position, quantified over in the theorems).
* Digital I/O pins are booleans; `motorsDisabled = true` models the shared
  EN pin driven HIGH (drivers disabled).
-/

/-- Azimuth steps-per-degree: (200.0 * MICROSTEPS * 5.75) / 360.0 with
MICROSTEPS = 2 and azimuth gear ratio 5.75 = 23/4 (source line 32). -/
def AZ_STEPS_PER_DEG : ℚ := (200 * 2 * (23 / 4)) / 360

/-- Altitude steps-per-degree: (200.0 * MICROSTEPS * 8.0) / 360.0 with
MICROSTEPS = 2 and altitude gear ratio 8.0 (source line 33). -/
def ALT_STEPS_PER_DEG : ℚ := (200 * 2 * 8) / 360

/-- Altitude soft-limit maximum, degrees (source line 35). -/
def ALT_MAX : ℚ := 54

/-- Altitude soft-limit minimum, degrees (source line 36). -/
def ALT_MIN : ℚ := -50

/-- Stale-command timeout in milliseconds (source line 56). -/
def POSITION_TIMEOUT : ℕ := 5000

/-- First normalization loop of `setAzimuthTarget` (source line 69):
`while (targetDeg >= 360) targetDeg -= 360;`. -/
def normAzLoop1 (d : ℚ) : ℚ :=
  if h : 360 ≤ d then normAzLoop1 (d - 360) else d
termination_by (⌊d / 360⌋).toNat
decreasing_by
  have h1 : (1 : ℚ) ≤ d / 360 := (le_div_iff₀ (by norm_num)).mpr (by linarith)
  have h2 : (1 : ℤ) ≤ ⌊d / 360⌋ := Int.le_floor.mpr (by exact_mod_cast h1)
  have h3 : ⌊(d - 360) / 360⌋ = ⌊d / 360⌋ - 1 := by
    have hx : (d - 360) / 360 = d / 360 - ((1 : ℤ) : ℚ) := by push_cast; ring
    rw [hx, Int.floor_sub_int]
  simp only [h3]
  omega

/-- Second normalization loop of `setAzimuthTarget` (source line 70):
`while (targetDeg < 0) targetDeg += 360;`. -/
def normAzLoop2 (d : ℚ) : ℚ :=
  if h : d < 0 then normAzLoop2 (d + 360) else d
termination_by (-⌊d / 360⌋).toNat
decreasing_by
  have h1 : d / 360 < 0 := div_neg_of_neg_of_pos h (by norm_num)
  have h2 : ⌊d / 360⌋ < 0 := Int.floor_lt.mpr (by exact_mod_cast h1)
  have h3 : ⌊(d + 360) / 360⌋ = ⌊d / 360⌋ + 1 := by
    have hx : (d + 360) / 360 = d / 360 + ((1 : ℤ) : ℚ) := by push_cast; ring
    rw [hx, Int.floor_add_int]
  simp only [h3]
  omega

/-- The full azimuth-degree normalization performed at the top of
`setAzimuthTarget` (source lines 69–70). -/
def normalizeAz (d : ℚ) : ℚ := normAzLoop2 (normAzLoop1 d)

/-- `setAzimuthTarget` (source lines 68–77), as the pure function from the
requested degrees and the current step count to the step target passed to
`azStepper.moveTo`. -/
def setAzimuthTargetSteps (targetDeg : ℚ) (currentSteps : ℚ) : ℚ :=
  let t := normalizeAz targetDeg
  let currentDegRaw := currentSteps / AZ_STEPS_PER_DEG
  let diff0 := t - (currentDegRaw - 360 * ((⌊currentDegRaw / 360⌋ : ℤ) : ℚ))
  let diff1 := if diff0 < -180 then diff0 + 360 else diff0
  let diff2 := if 180 < diff1 then diff1 - 360 else diff1
  currentSteps + diff2 * AZ_STEPS_PER_DEG

/-- `setAltitudeTarget` (source lines 79–83), as the pure function from the
requested degrees to the step target passed to `altStepper.moveTo`. -/
def setAltitudeTargetSteps (targetDeg : ℚ) : ℚ :=
  let t1 := if ALT_MAX < targetDeg then ALT_MAX else targetDeg
  let t2 := if t1 < ALT_MIN then ALT_MIN else t1
  t2 * ALT_STEPS_PER_DEG

/-- Reduction of a degree value into `[0, 360)` by subtracting the floored
multiple of 360; used to state the mod-360 clauses of the spec. -/
def modReduce360 (x : ℚ) : ℚ := x - 360 * ((⌊x / 360⌋ : ℤ) : ℚ)

/-!
## Arduino `String` primitives

Models of the external Arduino `String` operations used by `processPacket`
(`trim`, `indexOf`, `substring`, `toFloat`), over `List Char`.
-/

/-- Characters removed by `String.trim` / classified by C `isspace`. -/
def isSpaceChar (c : Char) : Bool :=
  c = ' ' || c = '\t' || c = '\n' || c = Char.ofNat 11 || c = Char.ofNat 12 || c = '\r'

/-- Arduino `String::trim`: strips `isspace` characters from both ends. -/
def trimList (s : List Char) : List Char :=
  (((s.dropWhile isSpaceChar).reverse).dropWhile isSpaceChar).reverse

/-- Whether `pat` occurs at the very start of `s`. -/
def startsWithL : List Char → List Char → Bool
  | _, [] => true
  | [], _ :: _ => false
  | c :: s, d :: p => c = d && startsWithL s p

/-- Scan for the first occurrence of `pat` in `s`, indices offset by `i`. -/
def indexOfAux (pat : List Char) : List Char → ℕ → Option ℕ
  | [], i => if startsWithL [] pat then some i else none
  | c :: rest, i =>
    if startsWithL (c :: rest) pat then some i else indexOfAux pat rest (i + 1)

/-- Arduino `String::indexOf`: index of the first occurrence of `pat` in `s`,
`none` standing for the C++ return value `-1`. -/
def indexOfL (s pat : List Char) : Option ℕ := indexOfAux pat s 0

/-- Arduino `String::substring(left, right)`: swaps the bounds when
`left > right`, clamps `right` to the length, and returns the characters of
the half-open range. -/
def substringLR (s : List Char) (left right : ℕ) : List Char :=
  let l := min left right
  let r := min (max left right) s.length
  (s.take r).drop l

/-- Arduino `String::substring(from)` = `substring(from, length)`. -/
def substringFrom (s : List Char) (from0 : ℕ) : List Char :=
  substringLR s from0 s.length

/-- Decimal value of a digit run (most significant first). -/
def digitsToNat (ds : List Char) : ℕ :=
  ds.foldl (fun a c => 10 * a + (c.toNat - 48)) 0

/-- Split off a leading run of decimal digits. -/
def takeDigits (s : List Char) : List Char × List Char :=
  (s.takeWhile Char.isDigit, s.dropWhile Char.isDigit)

/-- Modelled from the Arduino library: `String::toFloat` delegates to C
`atof`, here restricted to decimal forms — skip leading whitespace, optional
sign, integer digits, optional fraction, optional decimal exponent; if the
mantissa has no digit at all the result is 0 (hex/inf/nan forms are not
modelled; exact rational arithmetic stands in for `float`). -/
def atofQ (s : List Char) : ℚ :=
  let s1 := s.dropWhile isSpaceChar
  let signAnd : ℚ × List Char :=
    match s1 with
    | '-' :: r => (-1, r)
    | '+' :: r => (1, r)
    | _ => (1, s1)
  let intPart := takeDigits signAnd.2
  let fracAnd : List Char × List Char :=
    match intPart.2 with
    | '.' :: r => takeDigits r
    | _ => ([], intPart.2)
  if intPart.1 = [] ∧ fracAnd.1 = [] then 0
  else
    let mant : ℚ :=
      (digitsToNat intPart.1 : ℚ) + (digitsToNat fracAnd.1 : ℚ) / 10 ^ fracAnd.1.length
    let e : ℤ :=
      match fracAnd.2 with
      | c :: r =>
        if c = 'e' ∨ c = 'E' then
          match r with
          | '-' :: r2 => -(digitsToNat (takeDigits r2).1 : ℤ)
          | '+' :: r2 => (digitsToNat (takeDigits r2).1 : ℤ)
          | _ => (digitsToNat (takeDigits r).1 : ℤ)
        else 0
      | [] => 0
    signAnd.1 * mant * 10 ^ e

/-- The literal marker `"AZ:"`. -/
def azMarker : List Char := "AZ:".toList

/-- The literal marker `"ALT:"`. -/
def altMarker : List Char := "ALT:".toList

/-- The decode step of `processPacket` (source lines 85–91): trim the record,
locate the first occurrences of `AZ:` and `ALT:`, and when both exist read the
two float fields exactly as `packet.substring(azIndex + 3, altIndex).toFloat()`
and `packet.substring(altIndex + 4).toFloat()` do. -/
def parsePacket (packet : List Char) : Option (ℚ × ℚ) :=
  let p := trimList packet
  match indexOfL p azMarker, indexOfL p altMarker with
  | some azIndex, some altIndex =>
    some (atofQ (substringLR p (azIndex + 3) altIndex),
          atofQ (substringFrom p (altIndex + 4)))
  | _, _ => none

/-!
## Main-loop state machine

The globals of the sketch relevant to `loop()` (source lines 49–56, 207–248),
plus the two stepper positions/targets and the EN/LED output pins.
-/

/-- The mutable state carried across `loop()` iterations. -/
structure SysState where
  isEmergencyStopped : Bool
  motorsDisabled : Bool
  led : Bool
  azPos : ℚ
  azTarget : ℚ
  altPos : ℚ
  altTarget : ℚ
  inputBuffer : List Char
  lastPacketTime : ℕ
  clientConnected : Bool
  deriving Repr, DecidableEq

/-- The environment of one `loop()` iteration: the sampled force-stop pin,
whether the current client (if any) is still connected, whether
`server.available()` yields a new client, the bytes drained from the client
this iteration, the `millis()` value, and the opaque position update applied
by each `AccelStepper::run()` call (from position and target to the new
position). -/
structure LoopInput where
  forceStop : Bool
  stillConnected : Bool
  newClient : Bool
  bytes : List Char
  now : ℕ
  run1 : ℚ → ℚ → ℚ

/-- `azStepper.run(); altStepper.run();` — the opaque motion updates; they
never touch the targets. -/
def runBoth (f : ℚ → ℚ → ℚ) (s : SysState) : SysState :=
  { s with azPos := f s.azPos s.azTarget, altPos := f s.altPos s.altTarget }

/-- `processPacket` (source lines 85–102): decode the record and, unless
emergency-stopped, retarget both axes and refresh `lastPacketTime`. -/
def processPacket (s : SysState) (now : ℕ) (packet : List Char) : SysState :=
  match parsePacket packet with
  | none => s
  | some (az, alt) =>
    if !s.isEmergencyStopped then
      { s with azTarget := setAzimuthTargetSteps az s.azPos,
               altTarget := setAltitudeTargetSteps alt,
               lastPacketTime := now }
    else s

/-- The byte-drain loop of `loop()` (source lines 235–246): interleave stepper
runs with reading; a line feed completes a record and clears the buffer,
carriage returns are discarded, other bytes are appended. -/
def processBytes (now : ℕ) (f : ℚ → ℚ → ℚ) : SysState → List Char → SysState
  | s, [] => s
  | s, c :: rest =>
    let s1 := runBoth f s
    if c = '\n' then
      processBytes now f
        { processPacket s1 now s1.inputBuffer with inputBuffer := [] } rest
    else if c = '\r' then processBytes now f s1 rest
    else processBytes now f { s1 with inputBuffer := s1.inputBuffer ++ [c] } rest

/-- One iteration of `loop()` (source lines 207–248): safety check first
(force-stop HIGH latches the emergency flag, disables the drivers, turns the
LED off, and the iteration returns), then stepper runs, client management
(accepting a client clears the line buffer and refreshes `lastPacketTime`),
then the byte drain. -/
def loopStep (s : SysState) (inp : LoopInput) : SysState :=
  let s1 := if inp.forceStop then
      { s with isEmergencyStopped := true, motorsDisabled := true, led := false }
    else s
  if s1.isEmergencyStopped then s1
  else
    let s2 := runBoth inp.run1 s1
    let conn := s2.clientConnected && inp.stillConnected
    let s3 :=
      if !conn && inp.newClient then
        { s2 with clientConnected := true, inputBuffer := [], lastPacketTime := inp.now }
      else { s2 with clientConnected := conn }
    if s3.clientConnected then processBytes inp.now inp.run1 s3 inp.bytes else s3

/-- Repeated `loop()` iterations. -/
def runLoop (s : SysState) (ins : List LoopInput) : SysState := ins.foldl loopStep s

/-!
## Homing phase of `setup()`

The blocking homing loop (source lines 167–193): each pass handles the two
homing buttons (a press while the axis is unhomed zeroes the stepper via
`setCurrentPosition(0)`, which zeroes both position and target, and marks the
axis homed), then the force-stop pin, whose assertion traps in `while(1);`.
-/

/-- Homing-phase state: the two homed flags, the steppers, and the EN pin
(HIGH = disabled throughout homing, source line 141). -/
structure HomingState where
  azHomed : Bool
  altHomed : Bool
  azPos : ℚ
  azTarget : ℚ
  altPos : ℚ
  altTarget : ℚ
  motorsDisabled : Bool
  deriving Repr, DecidableEq

/-- The inputs sampled by one pass of the homing loop. -/
structure HomingInput where
  btnAz : Bool
  btnAlt : Bool
  forceStop : Bool
  deriving Repr, DecidableEq

/-- How the homing loop ends: `ready` (both axes homed, loop exits to line
195), `halted` (force-stop observed, trapped in `while(1);`), or `pending`
(the supplied input list ran out with the loop still spinning). -/
inductive HomingOutcome where
  | ready : HomingState → HomingOutcome
  | halted : HomingState → HomingOutcome
  | pending : HomingState → HomingOutcome
  deriving Repr, DecidableEq

/-- The button-handling part of one homing pass (source lines 174–186). -/
def homingBody (s : HomingState) (i : HomingInput) : HomingState :=
  let sa := if !s.azHomed && i.btnAz then
      { s with azPos := 0, azTarget := 0, azHomed := true }
    else s
  if !sa.altHomed && i.btnAlt then
    { sa with altPos := 0, altTarget := 0, altHomed := true }
  else sa

/-- The homing loop `while (!azHomed || !altHomed)` (source lines 167–193)
driven by a list of per-pass inputs. -/
def homingLoop (s : HomingState) : List HomingInput → HomingOutcome
  | [] => if s.azHomed && s.altHomed then .ready s else .pending s
  | i :: rest =>
    if s.azHomed && s.altHomed then .ready s
    else
      let s1 := homingBody s i
      if i.forceStop then .halted s1 else homingLoop s1 rest

/-!
## Claim-side predicates

Definitions that follow the wording of the spec, for comparison against the
source-derived functions above.
-/

/-- The record contains `pat` as a substring (starting at some index). -/
def containsSub (p pat : List Char) : Prop :=
  ∃ i, startsWithL (List.drop i p) pat = true

/-- Spec-side predicate, following the claim's wording: the record contains
the literal substring `AZ:` followed later by the literal substring `ALT:`
(an occurrence of `ALT:` starting at or after the end of an occurrence of
`AZ:`). -/
def orderedMarkersB (p : List Char) : Bool :=
  (List.range (p.length + 1)).any fun i =>
    startsWithL (p.drop i) azMarker &&
      (List.range (p.length + 1)).any fun j =>
        decide (i + 3 ≤ j) && startsWithL (p.drop j) altMarker

/-- A fresh client connection is accepted in this iteration (the loop reaches
line 224 with no connected client and `server.available()` yields one). -/
def freshAccept (s : SysState) (inp : LoopInput) : Bool :=
  !(s.isEmergencyStopped || inp.forceStop) &&
    (!(s.clientConnected && inp.stillConnected) && inp.newClient)

/-- Whether the byte-drain loop, started with line buffer `buf` and fed
`bytes`, completes at least one record that `parsePacket` decodes. -/
def anyRecordAccepted : List Char → List Char → Bool
  | _, [] => false
  | buf, c :: rest =>
    if c = '\n' then (parsePacket buf).isSome || anyRecordAccepted [] rest
    else if c = '\r' then anyRecordAccepted buf rest
    else anyRecordAccepted (buf ++ [c]) rest

/-- An accepted command (a decoded record applied while not emergency-stopped)
occurs somewhere in this iteration. -/
def acceptedRecordInIter (s : SysState) (inp : LoopInput) : Bool :=
  !(s.isEmergencyStopped || inp.forceStop) &&
    (let conn := s.clientConnected && inp.stillConnected
     let fresh := !conn && inp.newClient
     (conn || fresh) && anyRecordAccepted (if fresh then [] else s.inputBuffer) inp.bytes)

/-!
## Normalization lemmas and the azimuth/altitude resolver claims
-/

theorem normAzLoop1_lt (d : ℚ) : normAzLoop1 d < 360 := by
  induction d using normAzLoop1.induct with
  | case1 d h ih => unfold normAzLoop1; rw [dif_pos h]; exact ih
  | case2 d h => unfold normAzLoop1; rw [dif_neg h]; linarith [lt_of_not_le h]

theorem normAzLoop2_nonneg (d : ℚ) : 0 ≤ normAzLoop2 d := by
  induction d using normAzLoop2.induct with
  | case1 d h ih => unfold normAzLoop2; rw [dif_pos h]; exact ih
  | case2 d h => unfold normAzLoop2; rw [dif_neg h]; linarith [le_of_not_lt h]

theorem normAzLoop2_lt (d : ℚ) (hd : d < 360) : normAzLoop2 d < 360 := by
  induction d using normAzLoop2.induct with
  | case1 d h ih => unfold normAzLoop2; rw [dif_pos h]; exact ih (by linarith)
  | case2 d h => unfold normAzLoop2; rw [dif_neg h]; exact hd

/-- In the exact-rational idealization, the normalization step of
`setAzimuthTarget` is total and always lands in `[0, 360)`; see
`c8_float_loop_stuck` for why this holds only in the idealization and not in
the source's binary32 arithmetic. -/
theorem normalizeAz_in_range (d : ℚ) :
    0 ≤ normalizeAz d ∧ normalizeAz d < 360 :=
  ⟨normAzLoop2_nonneg _, normAzLoop2_lt _ (normAzLoop1_lt d)⟩

/-- Claim C6: `setAltitudeTarget` first clamps the requested angle into
`[ALT_MIN, ALT_MAX] = [-50, 54]` and then multiplies by the altitude
steps-per-degree constant, independent of the current position; in particular
60° resolves to the step-equivalent of 54° and −70° to that of −50°. -/
theorem c6_altitude_clamped :
    (∀ d : ℚ, setAltitudeTargetSteps d = max ALT_MIN (min ALT_MAX d) * ALT_STEPS_PER_DEG) ∧
    ALT_MIN = -50 ∧ ALT_MAX = 54 ∧
    setAltitudeTargetSteps 60 = 54 * ALT_STEPS_PER_DEG ∧
    setAltitudeTargetSteps (-70) = -50 * ALT_STEPS_PER_DEG := by
  have hMM : ALT_MIN ≤ ALT_MAX := by norm_num [ALT_MIN, ALT_MAX]
  refine ⟨fun d => ?_, by norm_num [ALT_MIN], by norm_num [ALT_MAX],
    by norm_num [setAltitudeTargetSteps, ALT_MAX, ALT_MIN],
    by norm_num [setAltitudeTargetSteps, ALT_MAX, ALT_MIN]⟩
  simp only [setAltitudeTargetSteps]
  rcases lt_or_le ALT_MAX d with h1 | h1
  · rw [if_pos h1, if_neg (not_lt.mpr hMM), min_eq_left h1.le, max_eq_right hMM]
  · rw [if_neg (not_lt.mpr h1), min_eq_right h1]
    rcases lt_or_le d ALT_MIN with h2 | h2
    · rw [if_pos h2, max_eq_left h2.le]
    · rw [if_neg (not_lt.mpr h2), max_eq_right h2]

theorem modReduce360_add_int (x : ℚ) (k : ℤ) :
    modReduce360 (x + 360 * k) = modReduce360 x := by
  unfold modReduce360
  have h1 : (x + 360 * (k : ℚ)) / 360 = x / 360 + (k : ℚ) := by
    field_simp
    ring
  rw [h1, Int.floor_add_int]
  push_cast
  ring

theorem modReduce360_eq_self (x : ℚ) (hx1 : 0 ≤ x) (hx2 : x < 360) :
    modReduce360 x = x := by
  unfold modReduce360
  have h0 : ⌊x / 360⌋ = 0 := by
    rw [Int.floor_eq_zero_iff]
    exact ⟨div_nonneg hx1 (by norm_num), by rw [div_lt_one (by norm_num : (0:ℚ) < 360)]; exact hx2⟩
  rw [h0]
  push_cast
  ring

/-- Claim C2: for every pair (current, requested) of azimuth angles both in
`[0, 360)` (the current angle being `currentSteps / AZ_STEPS_PER_DEG`),
`setAzimuthTarget` produces a step target whose angular delta from the current
angle lies in `[-180, 180]` degrees and whose degree-equivalent reduced mod
360 equals the requested angle. -/
theorem c2_azimuth_shortest_path (currentSteps requestedDeg : ℚ)
    (h1 : 0 ≤ requestedDeg) (h2 : requestedDeg < 360)
    (h3 : 0 ≤ currentSteps / AZ_STEPS_PER_DEG)
    (h4 : currentSteps / AZ_STEPS_PER_DEG < 360) :
    -180 ≤ (setAzimuthTargetSteps requestedDeg currentSteps - currentSteps) / AZ_STEPS_PER_DEG ∧
    (setAzimuthTargetSteps requestedDeg currentSteps - currentSteps) / AZ_STEPS_PER_DEG ≤ 180 ∧
    modReduce360 (setAzimuthTargetSteps requestedDeg currentSteps / AZ_STEPS_PER_DEG) = requestedDeg := by
  have hSval : AZ_STEPS_PER_DEG = 115 / 18 := by norm_num [AZ_STEPS_PER_DEG]
  have hSpos : (0 : ℚ) < AZ_STEPS_PER_DEG := by rw [hSval]; norm_num
  have hSne : AZ_STEPS_PER_DEG ≠ 0 := ne_of_gt hSpos
  have hnorm : normalizeAz requestedDeg = requestedDeg := by
    have e1 : normAzLoop1 requestedDeg = requestedDeg := by
      unfold normAzLoop1; exact dif_neg (by linarith)
    have e2 : normAzLoop2 requestedDeg = requestedDeg := by
      unfold normAzLoop2; exact dif_neg (by linarith)
    unfold normalizeAz; rw [e1, e2]
  have hfl : ⌊currentSteps / AZ_STEPS_PER_DEG / 360⌋ = 0 := by
    rw [Int.floor_eq_zero_iff]
    exact ⟨div_nonneg h3 (by norm_num), by rw [div_lt_one (by norm_num : (0:ℚ) < 360)]; exact h4⟩
  simp only [setAzimuthTargetSteps, hnorm, hfl]
  have hz : currentSteps / AZ_STEPS_PER_DEG - 360 * ((0 : ℤ) : ℚ) = currentSteps / AZ_STEPS_PER_DEG := by
    push_cast; ring
  rw [hz]
  split_ifs with hA hB hB
  · exfalso; linarith
  · refine ⟨?_, ?_, ?_⟩
    · have hv : currentSteps + (requestedDeg - currentSteps / AZ_STEPS_PER_DEG + 360) * AZ_STEPS_PER_DEG - currentSteps = (requestedDeg - currentSteps / AZ_STEPS_PER_DEG + 360) * AZ_STEPS_PER_DEG := by ring
      rw [hv, mul_div_cancel_right₀ _ hSne]
      linarith
    · have hv : currentSteps + (requestedDeg - currentSteps / AZ_STEPS_PER_DEG + 360) * AZ_STEPS_PER_DEG - currentSteps = (requestedDeg - currentSteps / AZ_STEPS_PER_DEG + 360) * AZ_STEPS_PER_DEG := by ring
      rw [hv, mul_div_cancel_right₀ _ hSne]
      linarith
    · have hv : (currentSteps + (requestedDeg - currentSteps / AZ_STEPS_PER_DEG + 360) * AZ_STEPS_PER_DEG) / AZ_STEPS_PER_DEG = requestedDeg + 360 * ((1 : ℤ) : ℚ) := by
        rw [add_div, mul_div_cancel_right₀ _ hSne]
        push_cast; ring
      rw [hv, modReduce360_add_int, modReduce360_eq_self _ h1 h2]
  · refine ⟨?_, ?_, ?_⟩
    · have hv : currentSteps + (requestedDeg - currentSteps / AZ_STEPS_PER_DEG - 360) * AZ_STEPS_PER_DEG - currentSteps = (requestedDeg - currentSteps / AZ_STEPS_PER_DEG - 360) * AZ_STEPS_PER_DEG := by ring
      rw [hv, mul_div_cancel_right₀ _ hSne]
      linarith
    · have hv : currentSteps + (requestedDeg - currentSteps / AZ_STEPS_PER_DEG - 360) * AZ_STEPS_PER_DEG - currentSteps = (requestedDeg - currentSteps / AZ_STEPS_PER_DEG - 360) * AZ_STEPS_PER_DEG := by ring
      rw [hv, mul_div_cancel_right₀ _ hSne]
      linarith
    · have hv : (currentSteps + (requestedDeg - currentSteps / AZ_STEPS_PER_DEG - 360) * AZ_STEPS_PER_DEG) / AZ_STEPS_PER_DEG = requestedDeg + 360 * ((-1 : ℤ) : ℚ) := by
        rw [add_div, mul_div_cancel_right₀ _ hSne]
        push_cast; ring
      rw [hv, modReduce360_add_int, modReduce360_eq_self _ h1 h2]
  · refine ⟨?_, ?_, ?_⟩
    · have hv : currentSteps + (requestedDeg - currentSteps / AZ_STEPS_PER_DEG) * AZ_STEPS_PER_DEG - currentSteps = (requestedDeg - currentSteps / AZ_STEPS_PER_DEG) * AZ_STEPS_PER_DEG := by ring
      rw [hv, mul_div_cancel_right₀ _ hSne]
      linarith
    · have hv : currentSteps + (requestedDeg - currentSteps / AZ_STEPS_PER_DEG) * AZ_STEPS_PER_DEG - currentSteps = (requestedDeg - currentSteps / AZ_STEPS_PER_DEG) * AZ_STEPS_PER_DEG := by ring
      rw [hv, mul_div_cancel_right₀ _ hSne]
      linarith
    · have hv : (currentSteps + (requestedDeg - currentSteps / AZ_STEPS_PER_DEG) * AZ_STEPS_PER_DEG) / AZ_STEPS_PER_DEG = requestedDeg + 360 * ((0 : ℤ) : ℚ) := by
        rw [add_div, mul_div_cancel_right₀ _ hSne]
        push_cast; ring
      rw [hv, modReduce360_add_int, modReduce360_eq_self _ h1 h2]

theorem homingBody_motors (s : HomingState) (i : HomingInput) :
    (homingBody s i).motorsDisabled = s.motorsDisabled := by
  simp only [homingBody]
  split <;> split <;> rfl

theorem homingBody_inv (s : HomingState) (i : HomingInput)
    (h1 : s.azHomed = true → s.azPos = 0) (h2 : s.altHomed = true → s.altPos = 0) :
    ((homingBody s i).azHomed = true → (homingBody s i).azPos = 0) ∧
    ((homingBody s i).altHomed = true → (homingBody s i).altPos = 0) := by
  simp only [homingBody]
  split <;> split <;> simp_all

theorem homingBody_az_source (s : HomingState) (i : HomingInput)
    (h : (homingBody s i).azHomed = true) : s.azHomed = true ∨ i.btnAz = true := by
  simp only [homingBody] at h
  split at h <;> split at h <;> simp_all

theorem homingBody_alt_source (s : HomingState) (i : HomingInput)
    (h : (homingBody s i).altHomed = true) : s.altHomed = true ∨ i.btnAlt = true := by
  simp only [homingBody] at h
  split at h <;> split at h <;> simp_all

theorem homingLoop_nil (s : HomingState) :
    homingLoop s [] =
      if (s.azHomed && s.altHomed) = true then .ready s else .pending s := rfl

theorem homingLoop_cons (s : HomingState) (i : HomingInput) (rest : List HomingInput) :
    homingLoop s (i :: rest) =
      if (s.azHomed && s.altHomed) = true then .ready s
      else if i.forceStop = true then .halted (homingBody s i)
      else homingLoop (homingBody s i) rest := rfl

theorem homingLoop_pending_spec (ins : List HomingInput) :
    ∀ s s1, homingLoop s ins = .pending s1 →
      (s1.azHomed && s1.altHomed) = false ∧ s1.motorsDisabled = s.motorsDisabled := by
  induction ins with
  | nil =>
    intro s s1 h
    rw [homingLoop_nil] at h
    by_cases hd : (s.azHomed && s.altHomed) = true
    · rw [if_pos hd] at h; exact HomingOutcome.noConfusion h
    · rw [if_neg hd] at h
      injection h with h'
      subst h'
      exact ⟨by simpa using hd, rfl⟩
  | cons i rest ih =>
    intro s s1 h
    rw [homingLoop_cons] at h
    by_cases hd : (s.azHomed && s.altHomed) = true
    · rw [if_pos hd] at h; exact HomingOutcome.noConfusion h
    · rw [if_neg hd] at h
      by_cases hf : i.forceStop = true
      · rw [if_pos hf] at h; exact HomingOutcome.noConfusion h
      · rw [if_neg hf] at h
        have hx := ih (homingBody s i) s1 h
        exact ⟨hx.1, hx.2.trans (homingBody_motors s i)⟩

theorem homingLoop_append (ins1 : List HomingInput) :
    ∀ s s1, homingLoop s ins1 = .pending s1 →
      ∀ ins2, homingLoop s (ins1 ++ ins2) = homingLoop s1 ins2 := by
  induction ins1 with
  | nil =>
    intro s s1 h ins2
    rw [homingLoop_nil] at h
    by_cases hd : (s.azHomed && s.altHomed) = true
    · rw [if_pos hd] at h; exact HomingOutcome.noConfusion h
    · rw [if_neg hd] at h
      injection h with h'
      subst h'
      rfl
  | cons i rest ih =>
    intro s s1 h ins2
    rw [homingLoop_cons] at h
    by_cases hd : (s.azHomed && s.altHomed) = true
    · rw [if_pos hd] at h; exact HomingOutcome.noConfusion h
    · rw [if_neg hd] at h
      by_cases hf : i.forceStop = true
      · rw [if_pos hf] at h; exact HomingOutcome.noConfusion h
      · rw [if_neg hf] at h
        show homingLoop s (i :: (rest ++ ins2)) = homingLoop s1 ins2
        rw [homingLoop_cons]
        rw [if_neg hd, if_neg hf]
        exact ih (homingBody s i) s1 h ins2

theorem homingLoop_ready_flags (ins : List HomingInput) :
    ∀ s s', homingLoop s ins = .ready s' → s'.azHomed = true ∧ s'.altHomed = true := by
  induction ins with
  | nil =>
    intro s s' h
    rw [homingLoop_nil] at h
    by_cases hd : (s.azHomed && s.altHomed) = true
    · rw [if_pos hd] at h
      injection h with h'
      subst h'
      simpa [Bool.and_eq_true] using hd
    · rw [if_neg hd] at h; exact HomingOutcome.noConfusion h
  | cons i rest ih =>
    intro s s' h
    rw [homingLoop_cons] at h
    by_cases hd : (s.azHomed && s.altHomed) = true
    · rw [if_pos hd] at h
      injection h with h'
      subst h'
      simpa [Bool.and_eq_true] using hd
    · rw [if_neg hd] at h
      by_cases hf : i.forceStop = true
      · rw [if_pos hf] at h; exact HomingOutcome.noConfusion h
      · rw [if_neg hf] at h
        exact ih (homingBody s i) s' h

theorem homingLoop_ready_inv (ins : List HomingInput) :
    ∀ s s', (s.azHomed = true → s.azPos = 0) → (s.altHomed = true → s.altPos = 0) →
      homingLoop s ins = .ready s' →
      (s'.azHomed = true → s'.azPos = 0) ∧ (s'.altHomed = true → s'.altPos = 0) := by
  induction ins with
  | nil =>
    intro s s' h1 h2 h
    rw [homingLoop_nil] at h
    by_cases hd : (s.azHomed && s.altHomed) = true
    · rw [if_pos hd] at h
      injection h with h'
      subst h'
      exact ⟨h1, h2⟩
    · rw [if_neg hd] at h; exact HomingOutcome.noConfusion h
  | cons i rest ih =>
    intro s s' h1 h2 h
    rw [homingLoop_cons] at h
    by_cases hd : (s.azHomed && s.altHomed) = true
    · rw [if_pos hd] at h
      injection h with h'
      subst h'
      exact ⟨h1, h2⟩
    · rw [if_neg hd] at h
      by_cases hf : i.forceStop = true
      · rw [if_pos hf] at h; exact HomingOutcome.noConfusion h
      · rw [if_neg hf] at h
        have hb := homingBody_inv s i h1 h2
        exact ih (homingBody s i) s' hb.1 hb.2 h

theorem homingLoop_ready_press_az (ins : List HomingInput) :
    ∀ s s', homingLoop s ins = .ready s' →
      s.azHomed = true ∨ ∃ i ∈ ins, i.btnAz = true := by
  induction ins with
  | nil =>
    intro s s' h
    rw [homingLoop_nil] at h
    by_cases hd : (s.azHomed && s.altHomed) = true
    · exact Or.inl (by simpa [Bool.and_eq_true] using hd.symm ▸ (Bool.and_eq_true _ _ |>.mp hd).1)
    · rw [if_neg hd] at h; exact HomingOutcome.noConfusion h
  | cons i rest ih =>
    intro s s' h
    rw [homingLoop_cons] at h
    by_cases hd : (s.azHomed && s.altHomed) = true
    · exact Or.inl ((Bool.and_eq_true _ _ |>.mp hd).1)
    · rw [if_neg hd] at h
      by_cases hf : i.forceStop = true
      · rw [if_pos hf] at h; exact HomingOutcome.noConfusion h
      · rw [if_neg hf] at h
        rcases ih (homingBody s i) s' h with hcase | ⟨j, hj, hbtn⟩
        · rcases homingBody_az_source s i hcase with hs | hb
          · exact Or.inl hs
          · exact Or.inr ⟨i, List.mem_cons_self i rest, hb⟩
        · exact Or.inr ⟨j, List.mem_cons_of_mem i hj, hbtn⟩

theorem homingLoop_ready_press_alt (ins : List HomingInput) :
    ∀ s s', homingLoop s ins = .ready s' →
      s.altHomed = true ∨ ∃ i ∈ ins, i.btnAlt = true := by
  induction ins with
  | nil =>
    intro s s' h
    rw [homingLoop_nil] at h
    by_cases hd : (s.azHomed && s.altHomed) = true
    · exact Or.inl ((Bool.and_eq_true _ _ |>.mp hd).2)
    · rw [if_neg hd] at h; exact HomingOutcome.noConfusion h
  | cons i rest ih =>
    intro s s' h
    rw [homingLoop_cons] at h
    by_cases hd : (s.azHomed && s.altHomed) = true
    · exact Or.inl ((Bool.and_eq_true _ _ |>.mp hd).2)
    · rw [if_neg hd] at h
      by_cases hf : i.forceStop = true
      · rw [if_pos hf] at h; exact HomingOutcome.noConfusion h
      · rw [if_neg hf] at h
        rcases ih (homingBody s i) s' h with hcase | ⟨j, hj, hbtn⟩
        · rcases homingBody_alt_source s i hcase with hs | hb
          · exact Or.inl hs
          · exact Or.inr ⟨i, List.mem_cons_self i rest, hb⟩
        · exact Or.inr ⟨j, List.mem_cons_of_mem i hj, hbtn⟩

/-- Claim C3: the ready state (homing loop exits, motors then enabled,
commands accepted) is reached only after both the azimuth and the altitude
homing confirmations have been observed, in either order; confirming the same
axis twice cannot cause a premature transition (some confirmation of each
axis must occur in the input), and on confirmation each axis's position is
reset to origin. -/
theorem c3_ready_requires_both_homed (p q r t : ℚ) (ins : List HomingInput) (s' : HomingState)
    (h : homingLoop { azHomed := false, altHomed := false, azPos := p, azTarget := q,
                      altPos := r, altTarget := t, motorsDisabled := true } ins = .ready s') :
    s'.azHomed = true ∧ s'.altHomed = true ∧ s'.azPos = 0 ∧ s'.altPos = 0 ∧
    (∃ i ∈ ins, i.btnAz = true) ∧ (∃ i ∈ ins, i.btnAlt = true) := by
  have hflags := homingLoop_ready_flags ins _ s' h
  have hinv := homingLoop_ready_inv ins _ s'
    (by intro hx; simp at hx) (by intro hx; simp at hx) h
  have haz := homingLoop_ready_press_az ins _ s' h
  have halt0 := homingLoop_ready_press_alt ins _ s' h
  refine ⟨hflags.1, hflags.2, hinv.1 hflags.1, hinv.2 hflags.2, ?_, ?_⟩
  · rcases haz with hx | hx
    · simp at hx
    · exact hx
  · rcases halt0 with hx | hx
    · simp at hx
    · exact hx

def c3inputs : List HomingInput :=
  [{ btnAz := true, btnAlt := false, forceStop := false },
   { btnAz := false, btnAlt := true, forceStop := false }]

def c3readyState : HomingState :=
  { azHomed := true, altHomed := true, azPos := 0, azTarget := 0,
    altPos := 0, altTarget := 0, motorsDisabled := true }

theorem c3_witness :
    c3readyState.azHomed = true ∧ c3readyState.altHomed = true ∧
    c3readyState.azPos = 0 ∧ c3readyState.altPos = 0 ∧
    (∃ i ∈ c3inputs, i.btnAz = true) ∧ (∃ i ∈ c3inputs, i.btnAlt = true) :=
  c3_ready_requires_both_homed 7 8 9 10 c3inputs c3readyState rfl

/-- Claim C9: if force-stop is observed HIGH during homing (before both axes
are homed), the system halts permanently: the homing loop traps in
`while(1);`, so the outcome is `halted`, no further input of any kind is
processed (the result is the same whatever `ins2` holds — homing buttons,
network traffic, or a force-stop release), and the motors remain disabled. -/
theorem c9_forcestop_during_homing_halts (s s1 : HomingState) (ins1 : List HomingInput)
    (i : HomingInput) (ins2 : List HomingInput)
    (hdis : s.motorsDisabled = true)
    (hp : homingLoop s ins1 = .pending s1) (hf : i.forceStop = true) :
    homingLoop s (ins1 ++ i :: ins2) = .halted (homingBody s1 i) ∧
    (homingBody s1 i).motorsDisabled = true := by
  have happ := homingLoop_append ins1 s s1 hp (i :: ins2)
  have hspec := homingLoop_pending_spec ins1 s s1 hp
  constructor
  · rw [happ, homingLoop_cons, if_neg (by simp [hspec.1]), if_pos hf]
  · rw [homingBody_motors, hspec.2, hdis]

def c9start : HomingState :=
  { azHomed := false, altHomed := false, azPos := 1, azTarget := 2,
    altPos := 3, altTarget := 4, motorsDisabled := true }

def c9stopInput : HomingInput := { btnAz := true, btnAlt := true, forceStop := true }

def c9laterInput : HomingInput := { btnAz := true, btnAlt := true, forceStop := false }

theorem c9_witness :
    homingLoop c9start ([] ++ c9stopInput :: [c9laterInput]) =
      .halted (homingBody c9start c9stopInput) ∧
    (homingBody c9start c9stopInput).motorsDisabled = true :=
  c9_forcestop_during_homing_halts c9start c9start [] c9stopInput [c9laterInput] rfl rfl rfl

theorem loopStep_forceStop (s : SysState) (inp : LoopInput) (h : inp.forceStop = true) :
    loopStep s inp =
      { s with isEmergencyStopped := true, motorsDisabled := true, led := false } := by
  simp only [loopStep, h, if_true]

theorem loopStep_stopped (s : SysState) (inp : LoopInput) (h : s.isEmergencyStopped = true) :
    loopStep s inp =
      if inp.forceStop then
        { s with isEmergencyStopped := true, motorsDisabled := true, led := false }
      else s := by
  by_cases hf : inp.forceStop = true
  · simp only [loopStep, hf, if_true]
  · have hf' : inp.forceStop = false := by simpa using hf
    simp [loopStep, hf', h]

theorem runLoop_frozen (ins : List LoopInput) :
    ∀ s : SysState, s.isEmergencyStopped = true → s.motorsDisabled = true →
      (runLoop s ins).azTarget = s.azTarget ∧ (runLoop s ins).altTarget = s.altTarget ∧
      (runLoop s ins).isEmergencyStopped = true ∧ (runLoop s ins).motorsDisabled = true := by
  induction ins with
  | nil => intro s h1 h2; exact ⟨rfl, rfl, h1, h2⟩
  | cons i rest ih =>
    intro s h1 h2
    have hstep : runLoop s (i :: rest) = runLoop (loopStep s i) rest := rfl
    rw [hstep, loopStep_stopped s i h1]
    by_cases hf : i.forceStop = true
    · rw [if_pos hf]
      exact ih { s with isEmergencyStopped := true, motorsDisabled := true, led := false } rfl rfl
    · rw [if_neg (by simp [hf])]
      exact ih s h1 h2

/-- Claim C1: once the force-stop input is observed HIGH (latching the
emergency-stopped flag), the motor enable output is disabled in that same
iteration, and no subsequently decoded command changes either axis's target:
over every further sequence of loop iterations and input bytes, both
`targetSteps` stay frozen at their pre-stop values and the drivers stay
disabled. -/
theorem c1_forcestop_freezes_targets (s : SysState) (inp : LoopInput) (ins : List LoopInput)
    (h : inp.forceStop = true) :
    (loopStep s inp).azTarget = s.azTarget ∧
    (loopStep s inp).altTarget = s.altTarget ∧
    (loopStep s inp).motorsDisabled = true ∧
    (loopStep s inp).isEmergencyStopped = true ∧
    (runLoop (loopStep s inp) ins).azTarget = s.azTarget ∧
    (runLoop (loopStep s inp) ins).altTarget = s.altTarget ∧
    (runLoop (loopStep s inp) ins).motorsDisabled = true ∧
    (runLoop (loopStep s inp) ins).isEmergencyStopped = true := by
  rw [loopStep_forceStop s inp h]
  have hr := runLoop_frozen ins
    { s with isEmergencyStopped := true, motorsDisabled := true, led := false } rfl rfl
  exact ⟨rfl, rfl, rfl, rfl, hr.1, hr.2.1, hr.2.2.2, hr.2.2.1⟩

def idRun : ℚ → ℚ → ℚ := fun p _ => p

def c1state : SysState :=
  { isEmergencyStopped := false, motorsDisabled := false, led := true,
    azPos := 100, azTarget := 99, altPos := 50, altTarget := 77,
    inputBuffer := [], lastPacketTime := 0, clientConnected := true }

def c1stopInput : LoopInput :=
  { forceStop := true, stillConnected := true, newClient := false,
    bytes := "AZ:1ALT:2\n".toList, now := 5, run1 := idRun }

def c1laterInputs : List LoopInput :=
  [{ forceStop := false, stillConnected := true, newClient := false,
     bytes := "AZ:3ALT:4\n".toList, now := 6, run1 := idRun }]

theorem c1_witness :
    (loopStep c1state c1stopInput).azTarget = c1state.azTarget ∧
    (loopStep c1state c1stopInput).altTarget = c1state.altTarget ∧
    (loopStep c1state c1stopInput).motorsDisabled = true ∧
    (loopStep c1state c1stopInput).isEmergencyStopped = true ∧
    (runLoop (loopStep c1state c1stopInput) c1laterInputs).azTarget = c1state.azTarget ∧
    (runLoop (loopStep c1state c1stopInput) c1laterInputs).altTarget = c1state.altTarget ∧
    (runLoop (loopStep c1state c1stopInput) c1laterInputs).motorsDisabled = true ∧
    (runLoop (loopStep c1state c1stopInput) c1laterInputs).isEmergencyStopped = true :=
  c1_forcestop_freezes_targets c1state c1stopInput c1laterInputs rfl

/-- Claim C10: whenever a new client connection is accepted, the
line-reassembly buffer is cleared before any of the new client's bytes are
processed: the iteration's outcome is independent of whatever the buffer held
from a previous connection, so no record parsed for the new client contains
leftover bytes. -/
theorem c10_buffer_cleared_on_accept (s : SysState) (b : List Char) (inp : LoopInput)
    (hstop : s.isEmergencyStopped = false) (hfs : inp.forceStop = false)
    (hconn : (s.clientConnected && inp.stillConnected) = false)
    (hnew : inp.newClient = true) :
    loopStep { s with inputBuffer := b } inp = loopStep s inp := by
  cases s with
  | mk e m l ap az alp alq ib lpt cc =>
    cases cc <;> cases hsc : inp.stillConnected <;> simp_all [loopStep, runBoth]

def c10state : SysState :=
  { isEmergencyStopped := false, motorsDisabled := false, led := true,
    azPos := 0, azTarget := 0, altPos := 0, altTarget := 0,
    inputBuffer := [], lastPacketTime := 0, clientConnected := false }

def c10input : LoopInput :=
  { forceStop := false, stillConnected := false, newClient := true,
    bytes := "AZ:10ALT:20\n".toList, now := 42, run1 := idRun }

theorem c10_witness :
    loopStep { c10state with inputBuffer := "AZ:99ALT:".toList } c10input =
      loopStep c10state c10input :=
  c10_buffer_cleared_on_accept c10state ("AZ:99ALT:".toList) c10input rfl rfl rfl rfl

theorem processPacket_stopped (s : SysState) (now : ℕ) (pkt : List Char) :
    (processPacket s now pkt).isEmergencyStopped = s.isEmergencyStopped := by
  unfold processPacket
  rcases hp : parsePacket pkt with _ | ⟨az, alt⟩ <;> simp only [hp]
  split <;> rfl

theorem processPacket_lpt (s : SysState) (now : ℕ) (pkt : List Char)
    (h : s.isEmergencyStopped = false) :
    (processPacket s now pkt).lastPacketTime =
      if (parsePacket pkt).isSome then now else s.lastPacketTime := by
  unfold processPacket
  rcases hp : parsePacket pkt with _ | ⟨az, alt⟩ <;> simp only [hp]
  · simp
  · simp [h]

theorem processBytes_nil (now : ℕ) (f : ℚ → ℚ → ℚ) (s : SysState) :
    processBytes now f s [] = s := rfl

theorem processBytes_cons (now : ℕ) (f : ℚ → ℚ → ℚ) (s : SysState) (c : Char)
    (rest : List Char) :
    processBytes now f s (c :: rest) =
      if c = '\n' then
        processBytes now f
          { processPacket (runBoth f s) now (runBoth f s).inputBuffer with
            inputBuffer := [] } rest
      else if c = '\r' then processBytes now f (runBoth f s) rest
      else processBytes now f
        { runBoth f s with inputBuffer := (runBoth f s).inputBuffer ++ [c] } rest := rfl

theorem anyRecordAccepted_nil (buf : List Char) : anyRecordAccepted buf [] = false := rfl

theorem anyRecordAccepted_cons (buf : List Char) (c : Char) (rest : List Char) :
    anyRecordAccepted buf (c :: rest) =
      if c = '\n' then ((parsePacket buf).isSome || anyRecordAccepted [] rest)
      else if c = '\r' then anyRecordAccepted buf rest
      else anyRecordAccepted (buf ++ [c]) rest := rfl

theorem processBytes_lpt (now : ℕ) (f : ℚ → ℚ → ℚ) (bs : List Char) :
    ∀ s : SysState, s.isEmergencyStopped = false →
      (processBytes now f s bs).lastPacketTime =
        if anyRecordAccepted s.inputBuffer bs = true then now else s.lastPacketTime := by
  induction bs with
  | nil =>
    intro s h
    rw [processBytes_nil, anyRecordAccepted_nil]
    simp
  | cons c rest ih =>
    intro s h
    rw [processBytes_cons, anyRecordAccepted_cons]
    by_cases hc : c = '\n'
    · rw [if_pos hc, if_pos hc]
      have hps : ({ processPacket (runBoth f s) now (runBoth f s).inputBuffer with
          inputBuffer := ([] : List Char) } : SysState).isEmergencyStopped = false := by
        show (processPacket (runBoth f s) now (runBoth f s).inputBuffer).isEmergencyStopped = false
        rw [processPacket_stopped]
        exact h
      rw [ih _ hps]
      have h3 : ({ processPacket (runBoth f s) now (runBoth f s).inputBuffer with
          inputBuffer := ([] : List Char) } : SysState).lastPacketTime =
          if (parsePacket s.inputBuffer).isSome then now else s.lastPacketTime := by
        show (processPacket (runBoth f s) now (runBoth f s).inputBuffer).lastPacketTime = _
        rw [processPacket_lpt _ _ _ (by exact h)]
        rfl
      rw [h3]
      by_cases ha : (parsePacket s.inputBuffer).isSome
      · simp [ha]
      · simp [ha]
    · rw [if_neg hc, if_neg hc]
      by_cases hr : c = '\r'
      · rw [if_pos hr, if_pos hr]
        rw [ih (runBoth f s) h]
        rfl
      · rw [if_neg hr, if_neg hr]
        rw [ih { runBoth f s with inputBuffer := (runBoth f s).inputBuffer ++ [c] } h]
        rfl

/-- Claim C7 (amended): within `loop()`, `lastPacketTime` is only ever
written with the current `millis()` value, and only in an iteration that
either accepts a new client connection (source line 230) or applies an
accepted command (source line 99); in every other iteration it is unchanged.
(The remaining write, the one-time initialization on entry to READY at source
line 200, is in `setup()`, outside the loop.) -/
theorem c7_lastPacketTime_sources (s : SysState) (inp : LoopInput) :
    (loopStep s inp).lastPacketTime = s.lastPacketTime ∨
    ((loopStep s inp).lastPacketTime = inp.now ∧
      (freshAccept s inp = true ∨ acceptedRecordInIter s inp = true)) := by
  by_cases hf : inp.forceStop = true
  · left; rw [loopStep_forceStop s inp hf]
  · have hf' : inp.forceStop = false := by simpa using hf
    by_cases hs : s.isEmergencyStopped = true
    · left; rw [loopStep_stopped s inp hs, if_neg (by simp [hf'])]
    · have hs' : s.isEmergencyStopped = false := by simpa using hs
      by_cases hconn : (s.clientConnected && inp.stillConnected) = true
      · have hstep : loopStep s inp =
            processBytes inp.now inp.run1
              { s with azPos := inp.run1 s.azPos s.azTarget,
                       altPos := inp.run1 s.altPos s.altTarget,
                       clientConnected := true } inp.bytes := by
          simp [loopStep, runBoth, hf', hs', hconn]
        have hl : (loopStep s inp).lastPacketTime =
            if anyRecordAccepted s.inputBuffer inp.bytes = true then inp.now
            else s.lastPacketTime := by
          rw [hstep, processBytes_lpt _ _ _ _ (by exact hs')]
        by_cases ha : anyRecordAccepted s.inputBuffer inp.bytes = true
        · right
          refine ⟨by rw [hl, if_pos ha], Or.inr ?_⟩
          simp [acceptedRecordInIter, hs', hf', hconn, ha]
        · left; rw [hl, if_neg ha]
      · have hconn' : (s.clientConnected && inp.stillConnected) = false := by
          simpa using hconn
        by_cases hnc : inp.newClient = true
        · have hstep : loopStep s inp =
              processBytes inp.now inp.run1
                { s with azPos := inp.run1 s.azPos s.azTarget,
                         altPos := inp.run1 s.altPos s.altTarget,
                         clientConnected := true, inputBuffer := [],
                         lastPacketTime := inp.now } inp.bytes := by
            simp [loopStep, runBoth, hf', hs', hconn', hnc]
          have hl : (loopStep s inp).lastPacketTime = inp.now := by
            rw [hstep, processBytes_lpt _ _ _ _ (by exact hs')]
            show (if anyRecordAccepted [] inp.bytes = true then inp.now else inp.now) = inp.now
            rw [ite_self]
          right
          exact ⟨hl, Or.inl (by simp [freshAccept, hs', hf', hconn', hnc])⟩
        · have hnc' : inp.newClient = false := by simpa using hnc
          have hstep : loopStep s inp =
              { s with azPos := inp.run1 s.azPos s.azTarget,
                       altPos := inp.run1 s.altPos s.altTarget,
                       clientConnected := false } := by
            simp [loopStep, runBoth, hf', hs', hconn', hnc']
          left
          rw [hstep]

def c7state : SysState :=
  { isEmergencyStopped := false, motorsDisabled := false, led := true,
    azPos := 0, azTarget := 0, altPos := 0, altTarget := 0,
    inputBuffer := [], lastPacketTime := 0, clientConnected := false }

def c7input : LoopInput :=
  { forceStop := false, stillConnected := false, newClient := true,
    bytes := [], now := 1234, run1 := idRun }

/-- Claim C7 counterexample: an iteration that merely accepts a new client
connection (source line 230) rewrites `lastPacketTime` to the current time
even though not a single byte — let alone an accepted command — was received,
so the clock is not "mutated only on receipt of a command accepted by the
Supervisor (plus the one-time initialization on entry to READY)". -/
theorem c7_counterexample :
    c7input.bytes = [] ∧ c7state.lastPacketTime = 0 ∧
    (loopStep c7state c7input).lastPacketTime = 1234 := ⟨rfl, rfl, rfl⟩

theorem atofQ_ten : atofQ ("10".toList) = 10 := by
  have h0 : atofQ ("10".toList) =
      1 * (((10 : ℕ) : ℚ) + ((0 : ℕ) : ℚ) / 10 ^ (0 : ℕ)) * 10 ^ (0 : ℤ) := rfl
  rw [h0]
  norm_num

theorem atofQ_twenty : atofQ ("20".toList) = 20 := by
  have h0 : atofQ ("20".toList) =
      1 * (((20 : ℕ) : ℚ) + ((0 : ℕ) : ℚ) / 10 ^ (0 : ℕ)) * 10 ^ (0 : ℤ) := rfl
  rw [h0]
  norm_num

theorem atofQ_twenty_tail : atofQ ("20AZ:10".toList) = 20 := by
  have h0 : atofQ ("20AZ:10".toList) =
      1 * (((20 : ℕ) : ℚ) + ((0 : ℕ) : ℚ) / 10 ^ (0 : ℕ)) * 10 ^ (0 : ℤ) := rfl
  rw [h0]
  norm_num

theorem normalizeAz_ten : normalizeAz 10 = 10 := by
  have e1 : normAzLoop1 10 = 10 := by unfold normAzLoop1; exact dif_neg (by norm_num)
  have e2 : normAzLoop2 10 = 10 := by unfold normAzLoop2; exact dif_neg (by norm_num)
  unfold normalizeAz
  rw [e1, e2]

theorem setAzimuthTargetSteps_ten : setAzimuthTargetSteps 10 0 = 575 / 9 := by
  simp only [setAzimuthTargetSteps, normalizeAz_ten]
  norm_num [AZ_STEPS_PER_DEG]

theorem setAltitudeTargetSteps_twenty : setAltitudeTargetSteps 20 = 1600 / 9 := by
  norm_num [setAltitudeTargetSteps, ALT_MAX, ALT_MIN, ALT_STEPS_PER_DEG]

def c4state : SysState :=
  { isEmergencyStopped := false, motorsDisabled := false, led := true,
    azPos := 0, azTarget := 0, altPos := 0, altTarget := 0,
    inputBuffer := [], lastPacketTime := 0, clientConnected := true }

def c4input : LoopInput :=
  { forceStop := false, stillConnected := true, newClient := false,
    bytes := "AZ:10ALT:20\n".toList, now := 6000, run1 := idRun }

/-- Claim C4 (code bug): `lastPacketTime` is recorded but never compared
against `POSITION_TIMEOUT` anywhere in the source, so no `HOLD_STALE`
transition exists: 6000 ms after the last accepted command (timeout 5000 ms)
the loop still accepts the next record unconditionally and retargets both
axes. -/
theorem c4_watchdog_never_fires :
    POSITION_TIMEOUT < c4input.now - c4state.lastPacketTime ∧
    (loopStep c4state c4input).azTarget = 575 / 9 ∧
    (loopStep c4state c4input).altTarget = 1600 / 9 ∧
    (loopStep c4state c4input).lastPacketTime = 6000 := by
  refine ⟨by decide, ?_, ?_, rfl⟩
  · have e : (loopStep c4state c4input).azTarget =
        setAzimuthTargetSteps (atofQ ("10".toList)) 0 := rfl
    rw [e, atofQ_ten, setAzimuthTargetSteps_ten]
  · have e : (loopStep c4state c4input).altTarget =
        setAltitudeTargetSteps (atofQ ("20".toList)) := rfl
    rw [e, atofQ_twenty, setAltitudeTargetSteps_twenty]

theorem indexOfAux_isSome_iff (pat : List Char) :
    ∀ (s : List Char) (i : ℕ),
      (indexOfAux pat s i).isSome = true ↔
        ∃ j, startsWithL (List.drop j s) pat = true := by
  intro s
  induction s with
  | nil =>
    intro i
    constructor
    · intro hs
      unfold indexOfAux at hs
      by_cases h : startsWithL [] pat = true
      · exact ⟨0, h⟩
      · rw [if_neg h] at hs
        simp at hs
    · rintro ⟨j, hj⟩
      rw [List.drop_nil] at hj
      unfold indexOfAux
      rw [if_pos hj]
      rfl
  | cons c rest ih =>
    intro i
    constructor
    · intro hs
      unfold indexOfAux at hs
      by_cases h : startsWithL (c :: rest) pat = true
      · exact ⟨0, h⟩
      · rw [if_neg h] at hs
        rcases (ih (i + 1)).mp hs with ⟨j, hj⟩
        exact ⟨j + 1, by simpa using hj⟩
    · rintro ⟨j, hj⟩
      unfold indexOfAux
      by_cases h : startsWithL (c :: rest) pat = true
      · rw [if_pos h]; rfl
      · rw [if_neg h]
        apply (ih (i + 1)).mpr
        cases j with
        | zero => exact absurd (by simpa using hj) h
        | succ j0 => exact ⟨j0, by simpa using hj⟩

theorem indexOfL_isSome_iff (s pat : List Char) :
    (indexOfL s pat).isSome = true ↔ containsSub s pat :=
  indexOfAux_isSome_iff pat s 0

/-- Claim C5 (amended): the decoder produces a command exactly when the
trimmed record contains both the literal substring `AZ:` and the literal
substring `ALT:`, in either order (not only when `AZ:` is followed later by
`ALT:`); a record lacking either marker is silently ignored and leaves the
whole state — in particular both axis targets — unchanged; when `AZ:`
precedes `ALT:` the azimuth value is the best-effort float of the text
strictly between the markers and the altitude value that of the text after
`ALT:`, e.g. "AZ:10ALT:20" decodes to the command (10, 20), while "ALT:20"
alone decodes to nothing. -/
theorem c5_decoder_markers (pkt : List Char) (s : SysState) (now : ℕ) :
    ((parsePacket pkt).isSome = true ↔
      (containsSub (trimList pkt) azMarker ∧ containsSub (trimList pkt) altMarker)) ∧
    (parsePacket pkt = none → processPacket s now pkt = s) ∧
    parsePacket ("AZ:10ALT:20".toList) = some (10, 20) ∧
    parsePacket ("ALT:20".toList) = none := by
  refine ⟨?_, ?_, ?_, rfl⟩
  · rw [← indexOfL_isSome_iff, ← indexOfL_isSome_iff]
    unfold parsePacket
    rcases h1 : indexOfL (trimList pkt) azMarker with _ | i <;>
      rcases h2 : indexOfL (trimList pkt) altMarker with _ | j <;>
        simp [h1, h2]
  · intro h
    unfold processPacket
    rw [h]
  · have e : parsePacket ("AZ:10ALT:20".toList) =
        some (atofQ ("10".toList), atofQ ("20".toList)) := rfl
    rw [e, atofQ_ten, atofQ_twenty]

theorem c5_decoder_markers_witness :
    processPacket c7state 3 ("ALT:20".toList) = c7state ∧
    parsePacket ("AZ:10ALT:20".toList) = some (10, 20) :=
  ⟨(c5_decoder_markers ("ALT:20".toList) c7state 3).2.1 rfl,
   (c5_decoder_markers ("ALT:20".toList) c7state 3).2.2.1⟩

def c5cState : SysState :=
  { isEmergencyStopped := false, motorsDisabled := false, led := true,
    azPos := 0, azTarget := 0, altPos := 0, altTarget := 0,
    inputBuffer := [], lastPacketTime := 0, clientConnected := true }

/-- Claim C5 counterexample: the record "ALT:20AZ:10" does not contain `AZ:`
followed later by `ALT:`, yet the decoder produces a command (the source
checks only that both `indexOf` calls succeed, not their order) and the
parsed altitude retargets the axis instead of leaving it unchanged. -/
theorem c5_counterexample :
    orderedMarkersB (trimList ("ALT:20AZ:10".toList)) = false ∧
    (parsePacket ("ALT:20AZ:10".toList)).isSome = true ∧
    (processPacket c5cState 7 ("ALT:20AZ:10".toList)).altTarget ≠ c5cState.altTarget := by
  refine ⟨rfl, rfl, ?_⟩
  have e : (processPacket c5cState 7 ("ALT:20AZ:10".toList)).altTarget =
      setAltitudeTargetSteps (atofQ ("20AZ:10".toList)) := rfl
  rw [e, atofQ_twenty_tail, setAltitudeTargetSteps_twenty]
  show (1600 : ℚ) / 9 ≠ 0
  norm_num

theorem c2_witness :
    -180 ≤ (setAzimuthTargetSteps 10 (20125 / 9) - 20125 / 9) / AZ_STEPS_PER_DEG ∧
    (setAzimuthTargetSteps 10 (20125 / 9) - 20125 / 9) / AZ_STEPS_PER_DEG ≤ 180 ∧
    modReduce360 (setAzimuthTargetSteps 10 (20125 / 9) / AZ_STEPS_PER_DEG) = 10 :=
  c2_azimuth_shortest_path (20125 / 9) 10 (by norm_num) (by norm_num)
    (by norm_num [AZ_STEPS_PER_DEG]) (by norm_num [AZ_STEPS_PER_DEG])

/-- IEEE-754 binary32 rounding of a positive rational in the normal range:
round to the nearest multiple of the unit in the last place (24-bit
significand), ties to even. This models the `float` type of `targetDeg`
(source line 68), which the exact-ℚ embedding used elsewhere idealizes away;
overflow to infinity and subnormals are not modelled (the inputs used below
stay well inside the normal range). -/
def roundB32 (x : ℚ) : ℚ :=
  if x ≤ 0 then 0
  else
    let ulp : ℚ := 2 ^ (Int.log 2 x - 23)
    let q : ℚ := x / ulp
    let fl : ℤ := ⌊q⌋
    let frac : ℚ := q - (fl : ℚ)
    let n : ℤ :=
      if frac < 1 / 2 then fl
      else if 1 / 2 < frac then fl + 1
      else if fl % 2 = 0 then fl else fl + 1
    (n : ℚ) * ulp

theorem int_log2_stuckA : Int.log 2 (8589935616 : ℚ) = 33 := by
  rw [Int.log_ofNat]
  exact_mod_cast Nat.log_eq_of_pow_le_of_lt_pow (by norm_num) (by norm_num)

theorem int_log2_stuckB : Int.log 2 (8589935256 : ℚ) = 33 := by
  rw [Int.log_ofNat]
  exact_mod_cast Nat.log_eq_of_pow_le_of_lt_pow (by norm_num) (by norm_num)

/-- Claim C8 (code bug): the source's `targetDeg` is a binary32 `float`, and
8589935616 = 2^33 + 1024 = (2^23 + 1) * 2^10 is exactly representable there
(so `roundB32` fixes it), yet one loop body of line 69 in float arithmetic,
`roundB32 (targetDeg - 360)`, rounds straight back to it: 360 is less than
half its ulp of 1024. The guard `targetDeg >= 360` therefore holds forever
and the normalization loop never exits for such inputs, while the exact-ℚ
normalization of the very same value terminates inside `[0, 360)` — the
termination claim describes the intent, not the float code. -/
theorem c8_float_loop_stuck :
    roundB32 8589935616 = 8589935616 ∧
    roundB32 (8589935616 - 360) = 8589935616 ∧
    (360 : ℚ) ≤ 8589935616 ∧
    0 ≤ normalizeAz 8589935616 ∧ normalizeAz 8589935616 < 360 := by
  refine ⟨?_, ?_, by norm_num, (normalizeAz_in_range 8589935616).1,
    (normalizeAz_in_range 8589935616).2⟩
  · simp only [roundB32]
    rw [if_neg (by norm_num), int_log2_stuckA]
    have hulp : (2 : ℚ) ^ ((33 : ℤ) - 23) = 1024 := by norm_num
    rw [hulp]
    have hq : (8589935616 : ℚ) / 1024 = 8388609 := by norm_num
    rw [hq]
    have hfl : ⌊(8388609 : ℚ)⌋ = 8388609 := by simp
    rw [hfl]
    norm_num
  · have hsub : (8589935616 : ℚ) - 360 = 8589935256 := by norm_num
    rw [hsub]
    simp only [roundB32]
    rw [if_neg (by norm_num), int_log2_stuckB]
    have hulp : (2 : ℚ) ^ ((33 : ℤ) - 23) = 1024 := by norm_num
    rw [hulp]
    have hfl : ⌊(8589935256 : ℚ) / 1024⌋ = 8388608 := by
      rw [Int.floor_eq_iff]
      constructor
      · norm_num
      · norm_num
    rw [hfl]
    have h1 : ¬((8589935256 : ℚ) / 1024 - ((8388608 : ℤ) : ℚ) < 1 / 2) := by
      push_cast
      norm_num
    have h2 : (1 : ℚ) / 2 < (8589935256 : ℚ) / 1024 - ((8388608 : ℤ) : ℚ) := by
      push_cast
      norm_num
    rw [if_neg h1, if_pos h2]
    norm_num
